import Mathlib

/-!
Verification of `ipaplatform/redhat/tasks.py` (FreeIPA Red Hat platform tasks).

Shallow embedding of the operations the specification talks about:
version comparison (`IPAVersion` / `parse_ipa_version`), the SELinux
boolean batch (`set_selinux_booleans`), the p11-kit trust store writer
(`write_p11kit_certs`), the PKCS#11 module configuration
(`configure_pkcs11_modules` / `restore_pkcs11_modules`), the DNS resolver
configuration (`configure_dns_resolver`) and the httpd drop-in removal
(`remove_httpd_service_ipa_conf`).
-/

/- ===================================================================
   Part 1: version comparison.

   `IPAVersion._rpmvercmp` (tasks.py lines 83-95) delegates to librpm's
   `rpmvercmp(const char *a, const char *b)` through ctypes; the
   comparison algorithm itself is not part of this repository.
   ================================================================ -/

/-- Character class used as a split point by the version comparison:
anything that is neither a digit, nor a letter, nor the tilde pre-release
marker is a separator. -/
def isSepChar (c : Char) : Bool :=
  !(c.isDigit || c.isAlpha) && c != '~'

/-- A version segment of the RPM comparison algorithm: a tilde marker, a
maximal alphabetic run, or a maximal numeric run taken as an
arbitrary-precision integer (leading zeros stripped). -/
inductive VTok where
  | tilde
  | alpha (s : List Char)
  | num (n : Nat)
  deriving DecidableEq, Repr

/-- Raw segment used while splitting: `brk` marks a separator so that two
digit (or letter) runs divided by a separator are not merged. -/
inductive RTok where
  | brk
  | tilde
  | numRun (ds : List Char)
  | alphaRun (cs : List Char)
  deriving DecidableEq, Repr

/-- Numeric value of one decimal digit character. -/
def digitVal (c : Char) : Nat := c.toNat - 48

/-- Numeric value of a decimal digit run (most significant digit first). -/
def digitsToNat (ds : List Char) : Nat :=
  ds.foldl (fun n c => 10 * n + digitVal c) 0

/-- Prepend a digit character onto the current numeric run, starting a new
run when the previous raw segment is not a numeric run. -/
def pushDigit (c : Char) : List RTok → List RTok
  | RTok.numRun ds :: ts => RTok.numRun (c :: ds) :: ts
  | ts => RTok.numRun [c] :: ts

/-- Prepend a letter onto the current alphabetic run, starting a new run
when the previous raw segment is not an alphabetic run. -/
def pushAlpha (c : Char) : List RTok → List RTok
  | RTok.alphaRun cs :: ts => RTok.alphaRun (c :: cs) :: ts
  | ts => RTok.alphaRun [c] :: ts

/-- Split a byte string into raw segments: maximal digit runs, maximal
letter runs, tilde markers and separator marks. -/
def rawToks : List Char → List RTok
  | [] => []
  | c :: cs =>
    if c.isDigit then pushDigit c (rawToks cs)
    else if c.isAlpha then pushAlpha c (rawToks cs)
    else if c = '~' then RTok.tilde :: rawToks cs
    else RTok.brk :: rawToks cs

/-- Finalize a raw segment: separators are dropped (they are split points
only and are never compared), numeric runs become integers. -/
def finTok : RTok → Option VTok
  | RTok.brk => none
  | RTok.tilde => some VTok.tilde
  | RTok.numRun ds => some (VTok.num (digitsToNat ds))
  | RTok.alphaRun cs => some (VTok.alpha cs)

/-- Modelled from the spec: librpm's segment splitting (the native
`rpmvercmp` routine is absent from src/; spec section 4.1 step 1: "Split
each version string into alternating runs ... a new segment starts
whenever the character class changes between digit, alphabetic, and
other (treated as separator)", with tilde as a marker segment). -/
def tokenize (l : List Char) : List VTok :=
  (rawToks l).filterMap finTok

/-- Comparison of two characters by raw byte value. -/
def charCmp (c d : Char) : Ordering := compare c.toNat d.toNat

/-- Lexicographic comparison of two letter runs by raw byte value. -/
def charsCmp : List Char → List Char → Ordering
  | [], [] => Ordering.eq
  | [], _ :: _ => Ordering.lt
  | _ :: _, [] => Ordering.gt
  | c :: cs, d :: ds =>
    match charCmp c d with
    | Ordering.eq => charsCmp cs ds
    | r => r

/-- Modelled from the spec: comparison of two version segments (spec
section 4.1 step 2): numeric segments compare as integers and are always
greater than alphabetic segments; alphabetic segments compare
lexicographically by raw byte value; the tilde marker sorts below
everything. -/
def vtokCmp : VTok → VTok → Ordering
  | VTok.tilde, VTok.tilde => Ordering.eq
  | VTok.tilde, _ => Ordering.lt
  | _, VTok.tilde => Ordering.gt
  | VTok.alpha s, VTok.alpha t => charsCmp s t
  | VTok.alpha _, VTok.num _ => Ordering.lt
  | VTok.num _, VTok.alpha _ => Ordering.gt
  | VTok.num m, VTok.num n => compare m n

/-- Modelled from the spec: segment lists compare left to right (spec
section 4.1 steps 2-4): when one side runs out of segments the longer
side is greater, unless the next extra segment is the tilde pre-release
marker, which makes the longer side lesser. -/
def toksCmp : List VTok → List VTok → Ordering
  | [], [] => Ordering.eq
  | [], VTok.tilde :: _ => Ordering.gt
  | [], _ :: _ => Ordering.lt
  | VTok.tilde :: _, [] => Ordering.lt
  | _ :: _, [] => Ordering.gt
  | a :: as, b :: bs =>
    match vtokCmp a b with
    | Ordering.eq => toksCmp as bs
    | r => r

/-- Sign encoding of an `Ordering`, matching the int returned by the C
routine (negative, zero, positive). -/
def ordToInt : Ordering → Int
  | Ordering.lt => -1
  | Ordering.eq => 0
  | Ordering.gt => 1

/-- Modelled from the spec: librpm's `rpmvercmp` over two byte strings
(the native routine called by `IPAVersion._rpmvercmp`, tasks.py lines
83-95, is not in src/); a pure total function per spec section 4.1. -/
def rpmvercmp (a b : String) : Int :=
  ordToInt (toksCmp (tokenize a.data) (tokenize b.data))

/-- Model of the `IPAVersion` wrapper class (tasks.py lines 79-116): it
stores the version text; all comparisons go through `_rpmvercmp` on the
UTF-8 bytes. -/
structure IPAVersion where
  version : String
  deriving DecidableEq, Repr

/-- Model of `RedHatTaskNamespace.parse_ipa_version` (tasks.py lines
485-490): wraps the text in an `IPAVersion`. -/
def parse_ipa_version (version : String) : IPAVersion :=
  IPAVersion.mk version

/-- The comparison underlying `IPAVersion.__eq__` and `__lt__` (tasks.py
lines 105-113): `_rpmvercmp` applied to the two stored byte strings. -/
def IPAVersion.vcmp (x y : IPAVersion) : Int :=
  rpmvercmp x.version y.version

/-- Model of `IPAVersion.__eq__` (tasks.py line 108). -/
def IPAVersion.eqb (x y : IPAVersion) : Bool :=
  IPAVersion.vcmp x y == 0

/-- Model of `IPAVersion.__lt__` (tasks.py line 113). -/
def IPAVersion.ltb (x y : IPAVersion) : Bool :=
  IPAVersion.vcmp x y < 0

/- ===================================================================
   Part 2: DNS resolver configuration.

   `RedHatTaskNamespace.configure_dns_resolver` (tasks.py lines 616-683).
   ================================================================ -/

/-- Python `sep.join(xs)`: concatenation of `xs` separated by `sep`. -/
def joinSep (sep : String) : List String → String
  | [] => ""
  | [x] => x
  | x :: xs => x ++ sep ++ joinSep sep xs

/-- Split a character list at newline characters. -/
def splitNl : List Char → List (List Char)
  | [] => [[]]
  | c :: cs =>
    if c = '\n' then [] :: splitNl cs
    else
      match splitNl cs with
      | l :: ls => (c :: l) :: ls
      | [] => [[c]]

/-- The lines of a file body, split at newline characters. -/
def fileLines (s : String) : List String :=
  (splitNl s.data).map List.asString

/-- A Python argument that is either an actual list of strings or some
non-list value (with its truthiness); used to model
`assert nameservers and isinstance(nameservers, list)`. -/
inductive PyListArg where
  | ofList (xs : List String)
  | notList (truthy : Bool)
  deriving DecidableEq, Repr

/-- Whether `assert arg and isinstance(arg, list)` passes (tasks.py lines
624-625): the argument must be a non-empty list. -/
def PyListArg.assertOk : PyListArg → Bool
  | PyListArg.ofList xs => !xs.isEmpty
  | PyListArg.notList _ => false

/-- Observable effects of `configure_dns_resolver`, in program order. -/
inductive DnsEffect where
  | baseConfigure
  | backupFile (path : String)
  | writeFile (path : String) (content : String)
  | nmReload
  deriving DecidableEq, Repr

/-- Value of `paths.RESOLV_CONF` (defined in ipaplatform.paths, outside
src/). -/
def RESOLV_CONF : String := "/etc/resolv.conf"

/-- Value of `paths.NETWORK_MANAGER_IPA_CONF` (defined in
ipaplatform.paths, outside src/). -/
def NETWORK_MANAGER_IPA_CONF : String :=
  "/etc/NetworkManager/conf.d/zzz-ipa.conf"

/-- The dedented `NM_IPA_CONF` template (tasks.py lines 66-76) with its
three placeholders substituted, as done at tasks.py lines 658-662. -/
def nmIpaConf (dnsprocessing searches servers : String) : String :=
  "\n# auto-generated by IPA installer\n[main]\ndns=" ++ dnsprocessing ++
    "\n\n[global-dns]\nsearches=" ++ searches ++
    "\n\n[global-dns-domain-*]\nservers=" ++ servers ++ "\n"

/-- Content of the static resolver file written by the fallback branch of
`configure_dns_resolver` (tasks.py lines 676-683): a comment header, a
`search` line, one `nameserver` line per address, joined by newlines. -/
def resolvConfContent (nameservers searchdomains : List String) : String :=
  joinSep "\n"
    (["# auto-generated by IPA installer",
      "search " ++ joinSep " " searchdomains] ++
      nameservers.map (fun ns => "nameserver " ++ ns))

/-- Result of `configure_dns_resolver`: the effects performed and whether
an `AssertionError` was raised. -/
structure DnsResult where
  effects : List DnsEffect
  assertionError : Bool
  deriving DecidableEq, Repr

/-- Effects of the body of `configure_dns_resolver` after the assertions
pass (tasks.py lines 627-683): the base-class call (BaseTaskNamespace is
outside src/, modelled as an opaque collaborator effect), the optional
resolv.conf backup, the NetworkManager drop-in write plus reload when
NetworkManager is enabled, and the static resolv.conf write when neither
NetworkManager nor systemd-resolved is enabled. -/
def dnsEffects (nameservers searchdomains : List String)
    (resolve1_enabled nm_enabled fstore_present fstore_has_resolv : Bool) :
    List DnsEffect :=
  [DnsEffect.baseConfigure] ++
    (if fstore_present && !fstore_has_resolv
     then [DnsEffect.backupFile RESOLV_CONF] else []) ++
    (if nm_enabled then
       [DnsEffect.writeFile NETWORK_MANAGER_IPA_CONF
          (nmIpaConf
            (if resolve1_enabled then "systemd-resolved" else "default")
            (joinSep "," searchdomains)
            (joinSep "," nameservers)),
        DnsEffect.nmReload]
     else []) ++
    (if !resolve1_enabled && !nm_enabled then
       [DnsEffect.writeFile RESOLV_CONF
          (resolvConfContent nameservers searchdomains)]
     else [])

/-- Model of `RedHatTaskNamespace.configure_dns_resolver` (tasks.py lines
616-683): the two `assert` statements run before anything else; on
failure an `AssertionError` propagates and no effect is performed. -/
def configure_dns_resolver (nameservers searchdomains : PyListArg)
    (resolve1_enabled nm_enabled fstore_present fstore_has_resolv : Bool) :
    DnsResult :=
  match nameservers, searchdomains with
  | PyListArg.ofList (n :: ns), PyListArg.ofList (s :: ds) =>
    DnsResult.mk
      (dnsEffects (n :: ns) (s :: ds)
        resolve1_enabled nm_enabled fstore_present fstore_has_resolv)
      false
  | _, _ => DnsResult.mk [] true

/- ===================================================================
   Part 3: SELinux boolean batch.

   `RedHatTaskNamespace.set_selinux_booleans` (tasks.py lines 441-483).
   ================================================================ -/

/-- Value of `paths.SETSEBOOL` (defined in ipaplatform.paths, outside
src/). -/
def SETSEBOOL : String := "/usr/sbin/setsebool"

/-- Environment of one `set_selinux_booleans` call: whether
`is_selinux_enabled` reports true, the outcome of `getsebool <setting>`
for each setting (`none` models a `CalledProcessError`, `some state`
models a successful query parsed to the current state), and whether the
single `setsebool -P` batch invocation succeeds. -/
structure SeLinuxEnv where
  enabled : Bool
  getsebool : String → Option String
  setseboolOk : Bool

/-- Model of the inner `get_setsebool_args` (tasks.py lines 442-446):
`[setsebool, "-P", "name=value", ...]`. -/
def getSetseboolArgs (changes : List (String × String)) : List String :=
  [SETSEBOOL, "-P"] ++ changes.map (fun u => u.1 ++ "=" ++ u.2)

/-- The `SetseboolError` raised at tasks.py lines 478-481: the mapping of
failed settings to their intended values, and the joined command line. -/
structure SetseboolError where
  failed : List (String × String)
  command : String
  deriving DecidableEq, Repr

/-- Return-or-raise outcome of `set_selinux_booleans`. -/
inductive SeOutcome where
  | raised (err : SetseboolError)
  | ret (value : Bool)
  deriving DecidableEq, Repr

/-- Trace of one `set_selinux_booleans` call: the `backup_func` calls
made (setting, original state), the argument vectors of the `setsebool`
invocations, and the outcome. -/
structure SeTrace where
  backups : List (String × String)
  setseboolRuns : List (List String)
  outcome : SeOutcome
  deriving DecidableEq, Repr

/-- The per-setting loop of `set_selinux_booleans` (tasks.py lines
451-469): returns `(updated_vars, failed_vars, backups)` in iteration
order. A `none` state is skipped; a successful query records a backup
(when a backup function was supplied) and an update when the original
state differs; a failed query records the setting in `failed_vars`. -/
def seLoop (env : SeLinuxEnv) (hasBackup : Bool) :
    List (String × Option String) →
      List (String × String) × List (String × String) × List (String × String)
  | [] => ([], [], [])
  | (setting, stOpt) :: rest =>
    match stOpt with
    | none => seLoop env hasBackup rest
    | some state =>
      match env.getsebool setting with
      | some originalState =>
        let r := seLoop env hasBackup rest
        ((if originalState != state then [(setting, state)] else []) ++ r.1,
         r.2.1,
         (if hasBackup then [(setting, originalState)] else []) ++ r.2.2)
      | none =>
        let r := seLoop env hasBackup rest
        (r.1, (setting, state) :: r.2.1, r.2.2)

/-- The final `failed_vars` mapping (tasks.py lines 471-476): the query
failures, extended with `updated_vars` when the single `setsebool -P`
batch run itself failed. -/
def seFailedVars (env : SeLinuxEnv)
    (updated failed0 : List (String × String)) : List (String × String) :=
  if updated.isEmpty then failed0
  else if env.setseboolOk then failed0 else failed0 ++ updated

/-- The `setsebool` invocations made (tasks.py lines 471-474): one batch
run with all of `updated_vars`, or none when nothing needs changing. -/
def seRuns (updated : List (String × String)) : List (List String) :=
  if updated.isEmpty then [] else [getSetseboolArgs updated]

/-- The tail of `set_selinux_booleans` after the loop (tasks.py lines
471-483): run `setsebool -P` once when there are updates, fold a failed
batch run into `failed_vars`, raise `SetseboolError` when `failed_vars`
is non-empty, otherwise return True. -/
def seFinish (env : SeLinuxEnv)
    (r : List (String × String) × List (String × String) × List (String × String)) :
    SeTrace :=
  if (seFailedVars env r.1 r.2.1).isEmpty then
    SeTrace.mk r.2.2 (seRuns r.1) (SeOutcome.ret true)
  else
    SeTrace.mk r.2.2 (seRuns r.1)
      (SeOutcome.raised
        (SetseboolError.mk (seFailedVars env r.1 r.2.1)
          (joinSep " " (getSetseboolArgs (seFailedVars env r.1 r.2.1)))))

/-- Model of `RedHatTaskNamespace.set_selinux_booleans` (tasks.py lines
441-483). `required` is the `required_settings` mapping in iteration
order; `hasBackup` tells whether a `backup_func` was supplied. -/
def set_selinux_booleans (env : SeLinuxEnv)
    (required : List (String × Option String)) (hasBackup : Bool) : SeTrace :=
  if env.enabled = false then SeTrace.mk [] [] (SeOutcome.ret false)
  else seFinish env (seLoop env hasBackup required)

/-- Specification-side view of one required setting: the entry that the
loop adds to `failed_vars` (query failed). -/
def queryFailed (env : SeLinuxEnv) (p : String × Option String) :
    Option (String × String) :=
  match p.2 with
  | none => none
  | some state =>
    match env.getsebool p.1 with
    | some _ => none
    | none => some (p.1, state)

/-- Specification-side view of one required setting: the entry that the
loop adds to `updated_vars` (query succeeded and the value differs). -/
def needsChange (env : SeLinuxEnv) (p : String × Option String) :
    Option (String × String) :=
  match p.2 with
  | none => none
  | some state =>
    match env.getsebool p.1 with
    | some originalState =>
      if originalState != state then some (p.1, state) else none
    | none => none

/-- Specification-side view of one required setting: the `backup_func`
call the loop makes for it. -/
def backupEntry (env : SeLinuxEnv) (hasBackup : Bool)
    (p : String × Option String) : Option (String × String) :=
  match p.2 with
  | none => none
  | some _ =>
    match env.getsebool p.1 with
    | some originalState =>
      if hasBackup then some (p.1, originalState) else none
    | none => none

/-- Concrete environment for exercising `set_selinux_booleans`: SELinux
enabled, queries succeed for "b1" and "b3" (both currently "off") and
fail for every other setting, and the `setsebool` batch run succeeds. -/
def seEnvW : SeLinuxEnv :=
  SeLinuxEnv.mk true
    (fun s => if s = "b1" then some "off"
              else if s = "b3" then some "off" else none)
    true

/-- Concrete required-settings batch of three settings, all targeted "on". -/
def seReqW : List (String × Option String) :=
  [("b1", some "on"), ("b2", some "on"), ("b3", some "on")]

/-- Concrete environment where every queried boolean is already "on". -/
def seEnvNoChange : SeLinuxEnv :=
  SeLinuxEnv.mk true (fun _ => some "on") true

/- ===================================================================
   Part 4: p11-kit trust store writer.

   `RedHatTaskNamespace.write_p11kit_certs` (tasks.py lines 308-394).
   ================================================================ -/

/-- Uppercase hexadecimal digit for a value below 16. -/
def hexDigitChar (n : Nat) : Char :=
  if n < 10 then Char.ofNat (48 + n) else Char.ofNat (55 + n)

/-- Percent-escaping of one byte, as `urllib.parse.quote` does with the
default safe set (letters, digits, `_.-~` and `/` stay; everything else
becomes `%XX` with uppercase hex). -/
def quoteChar (c : Char) : List Char :=
  if c.isAlpha || c.isDigit || c = '_' || c = '.' || c = '-' || c = '~' || c = '/'
  then [c]
  else ['%', hexDigitChar (c.toNat / 16 % 16), hexDigitChar (c.toNat % 16)]

/-- Model of `urllib.parse.quote` applied to a byte string (tasks.py
lines 343-347 and 381). -/
def urlquote (s : String) : String :=
  ((s.data.map quoteChar).flatten).asString

/-- One input certificate of `write_p11kit_certs`: the already decoded
byte strings that the code reads from the certificate object (tasks.py
lines 332-337), the trust flag and the optional extended-key-usage
encoding (`none` when `cert.extended_key_usage is None`), and the PEM
text. -/
structure CaCert where
  nickname : String
  subject : String
  issuer : String
  serial : String
  pkinfo : String
  trusted : Option Bool
  eku : Option String
  pem : String

/-- One `[p11-kit-object-v1]` stanza emitted by `write_p11kit_certs`: a
certificate object or an extended-key-usage extension object keyed by
the (percent-escaped) public-key info. -/
inductive P11Stanza where
  | cert (label subject issuer serial pki : String)
      (trusted : Option Bool) (pem : String)
  | ekuExt (label pki value : String)

/-- The certificate stanza of one input certificate (tasks.py lines
343-370): every field percent-escaped. -/
def p11CertStanza (c : CaCert) : P11Stanza :=
  P11Stanza.cert (urlquote c.nickname) (urlquote c.subject)
    (urlquote c.issuer) (urlquote c.serial) (urlquote c.pkinfo)
    c.trusted c.pem

/-- The trusted / distrusted line of a certificate stanza (tasks.py lines
363-366). -/
def renderTrusted : Option Bool → String
  | some true => "trusted: true\n"
  | some false => "x-distrusted: true\n"
  | none => ""

/-- Text of one stanza, exactly as the format strings at tasks.py lines
349-368 and 382-390 produce it. -/
def renderStanza : P11Stanza → String
  | P11Stanza.cert label subject issuer serial pki trusted pem =>
    "[p11-kit-object-v1]\nclass: certificate\ncertificate-type: x-509\n" ++
      "certificate-category: authority\nlabel: \"" ++ label ++
      "\"\nsubject: \"" ++ subject ++ "\"\nissuer: \"" ++ issuer ++
      "\"\nserial-number: \"" ++ serial ++ "\"\nx-public-key-info: \"" ++
      pki ++ "\"\n" ++ renderTrusted trusted ++ pem ++ "\n\n"
  | P11Stanza.ekuExt label pki value =>
    "[p11-kit-object-v1]\nclass: x-certificate-extension\n" ++
      "label: \"ExtendedKeyUsage for " ++ label ++
      "\"\nx-public-key-info: \"" ++ pki ++
      "\"\nobject-id: 2.5.29.37\nvalue: \"" ++ value ++ "\"\n\n"

/-- The certificate loop of `write_p11kit_certs` (tasks.py lines
331-392): emit a certificate stanza per input; additionally emit an
extended-key-usage stanza when the certificate has one and its
(escaped) public-key info is not yet in the `has_eku` set `seen`. -/
def p11kitObjects : List CaCert → List String → List P11Stanza
  | [], _ => []
  | c :: cs, seen =>
    match c.eku with
    | none => p11CertStanza c :: p11kitObjects cs seen
    | some ek =>
      if urlquote c.pkinfo ∈ seen then p11CertStanza c :: p11kitObjects cs seen
      else
        p11CertStanza c ::
          P11Stanza.ekuExt (urlquote c.nickname) (urlquote c.pkinfo)
            (urlquote ek) ::
          p11kitObjects cs (urlquote c.pkinfo :: seen)

/-- Model of `RedHatTaskNamespace.write_p11kit_certs` (tasks.py lines
308-394): the stanzas written after the fixed header, in order, starting
with an empty `has_eku` set. -/
def write_p11kit_certs (certs : List CaCert) : List P11Stanza :=
  p11kitObjects certs []

/-- Full text of the file written by `write_p11kit_certs` (tasks.py lines
322-323 header plus the stanzas). -/
def p11FileContent (certs : List CaCert) : String :=
  "# This file was created by IPA. Do not edit.\n\n" ++
    joinSep "" ((write_p11kit_certs certs).map renderStanza)

/-- The public-key-info keys of the extension stanzas of an output, in
emission order. -/
def ekuKeys (stanzas : List P11Stanza) : List String :=
  stanzas.filterMap fun st =>
    match st with
    | P11Stanza.ekuExt _ pki _ => some pki
    | P11Stanza.cert _ _ _ _ _ _ _ => none

/- ===================================================================
   Part 5: PKCS#11 module configuration.

   `RedHatTaskNamespace.configure_pkcs11_modules` (tasks.py lines
   700-729) and `restore_pkcs11_modules` (tasks.py lines 731-750).
   ================================================================ -/

/-- Whether `needle` starts `hay`. -/
def leadsWith : List Char → List Char → Bool
  | [], _ => true
  | _ :: _, [] => false
  | a :: as, b :: bs => a == b && leadsWith as bs

/-- Whether `needle` occurs as a contiguous subsequence of `hay`
(Python's `needle in hay` on strings). -/
def containsSeq (needle : List Char) : List Char → Bool
  | [] => leadsWith needle []
  | c :: t => leadsWith needle (c :: t) || containsSeq needle t

/-- Python `"IPA" in content` (tasks.py line 714). -/
def containsIPA (s : String) : Bool :=
  containsSeq "IPA".data s.data

/-- Value of `paths.ETC_PKCS11_MODULES_DIR` (defined in
ipaplatform.paths, outside src/). -/
def ETC_PKCS11_MODULES_DIR : String := "/etc/pkcs11/modules"

/-- Value of `paths.LIBSOFTHSM2_SO` (defined in ipaplatform.paths,
outside src/). -/
def LIBSOFTHSM2_SO : String := "/usr/lib64/pkcs11/libsofthsm2.so"

/-- The `PKCS11_MODULES` constant (tasks.py lines 61-63): base filename,
module path, list of disabled-in entries. -/
def PKCS11_MODULES : List (String × String × List String) :=
  [("softhsm2", LIBSOFTHSM2_SO, ["p11-kit-proxy"])]

/-- `os.path.join(paths.ETC_PKCS11_MODULES_DIR, name + ".module")`
(tasks.py lines 705-708 and 736-739). -/
def moduleFilename (name : String) : String :=
  ETC_PKCS11_MODULES_DIR ++ "/" ++ name ++ ".module"

/-- Content written for one module config file (tasks.py lines 719-723). -/
def moduleContent (module : String) (disabled : List String) : String :=
  "# created by IPA installer\nmodule: " ++ module ++ "\ndisable-in: " ++
    joinSep ", " disabled ++ "\n"

/-- Filesystem-and-fstore state seen by the PKCS#11 operations: the
content of each path (`none` when the file does not exist) and which
paths the fstore backup store already holds (`fstore.has_file`). -/
structure P11Fs where
  files : String → Option String
  fstoreHas : String → Bool

/-- Whether the body at tasks.py lines 709-717 backs up `filename`: the
file exists, does not look IPA-generated (no "IPA" in its content), and
is not yet in the backup store. -/
def p11DoBackup (fs : P11Fs) (filename : String) : Bool :=
  match fs.files filename with
  | some content => !containsIPA content && !fs.fstoreHas filename
  | none => false

/-- State after handling one module entry: the module file is rewritten
with the generated content, and on backup the store records the path. -/
def p11StepFs (fs : P11Fs) (filename content : String) : P11Fs :=
  P11Fs.mk
    (fun p => if p = filename then some content else fs.files p)
    (fun p =>
      if p = filename then (fs.fstoreHas p || p11DoBackup fs filename)
      else fs.fstoreHas p)

/-- Loop of `configure_pkcs11_modules` over the module table (tasks.py
lines 703-727): returns the final state, the `fstore.backup_file` calls
made, and the filenames written, in order. -/
def configureP11 : List (String × String × List String) → P11Fs →
    P11Fs × List String × List String
  | [], fs => (fs, [], [])
  | (name, module, disabled) :: rest, fs =>
    let filename := moduleFilename name
    let fs2 := p11StepFs fs filename (moduleContent module disabled)
    let r := configureP11 rest fs2
    (r.1,
     (if p11DoBackup fs filename then [filename] else []) ++ r.2.1,
     filename :: r.2.2)

/-- Result of one `configure_pkcs11_modules` call. -/
structure P11ConfigResult where
  fs : P11Fs
  backups : List String
  filenames : List String

/-- Model of `RedHatTaskNamespace.configure_pkcs11_modules` (tasks.py
lines 700-729). -/
def configure_pkcs11_modules (fs : P11Fs) : P11ConfigResult :=
  P11ConfigResult.mk (configureP11 PKCS11_MODULES fs).1
    (configureP11 PKCS11_MODULES fs).2.1
    (configureP11 PKCS11_MODULES fs).2.2

/-- The backup calls a run performs for the single configured module
file, characterized from the pre-state. -/
def expectedP11Backups (fs : P11Fs) : List String :=
  if p11DoBackup fs (moduleFilename "softhsm2")
  then [moduleFilename "softhsm2"] else []

/- ===================================================================
   Part 6: restore/removal error handling.

   `remove_httpd_service_ipa_conf` (tasks.py lines 561-578) and
   `restore_pkcs11_modules` (tasks.py lines 731-750).
   ================================================================ -/

/-- Outcome of an `os.unlink` call: success, or an `OSError` carrying an
errno. -/
inductive UnlinkResult where
  | ok
  | err (errno : Nat)
  deriving DecidableEq, Repr

/-- `errno.ENOENT`. -/
def ENOENT : Nat := 2

/-- What `remove_httpd_service_ipa_conf` logs in its `except OSError`
handler (tasks.py lines 565-576). -/
inductive RemoveLog where
  | noLog
  | absentDebug
  | errorLog
  deriving DecidableEq, Repr

/-- Trace of one `remove_httpd_service_ipa_conf` call: whether an
exception propagates to the caller, whether `systemd_daemon_reload` was
invoked, and what was logged. -/
structure RemoveHttpdTrace where
  raised : Bool
  reloaded : Bool
  log : RemoveLog
  deriving DecidableEq, Repr

/-- Model of `RedHatTaskNamespace.remove_httpd_service_ipa_conf`
(tasks.py lines 561-578): every `OSError` from `os.unlink` is caught;
`ENOENT` is logged at debug as "file does not exist", anything else is
logged as an error; in both cases the function returns (skipping the
systemd reload) without re-raising. -/
def remove_httpd_service_ipa_conf : UnlinkResult → RemoveHttpdTrace
  | UnlinkResult.ok => RemoveHttpdTrace.mk false true RemoveLog.noLog
  | UnlinkResult.err e =>
    RemoveHttpdTrace.mk false false
      (if e = ENOENT then RemoveLog.absentDebug else RemoveLog.errorLog)

/-- Trace of one `restore_pkcs11_modules` call: whether an exception
propagates, the filenames returned (those actually unlinked), and the
`fstore.restore_file` calls made. -/
structure RestoreP11Trace where
  raised : Bool
  filenames : List String
  restored : List String
  deriving DecidableEq, Repr

/-- Loop of `restore_pkcs11_modules` (tasks.py lines 734-748): `unlink`
errors of any kind are swallowed by `except OSError: pass` (the filename
is then not collected); the fstore restore happens regardless. -/
def restoreP11Loop (unlink : String → UnlinkResult)
    (fstoreHas : String → Bool) :
    List (String × String × List String) → List String × List String
  | [] => ([], [])
  | (name, _module, _disabled) :: rest =>
    let filename := moduleFilename name
    let r := restoreP11Loop unlink fstoreHas rest
    ((match unlink filename with
      | UnlinkResult.ok => [filename]
      | UnlinkResult.err _ => []) ++ r.1,
     (if fstoreHas filename then [filename] else []) ++ r.2)

/-- Model of `RedHatTaskNamespace.restore_pkcs11_modules` (tasks.py
lines 731-750): never raises. -/
def restore_pkcs11_modules (unlink : String → UnlinkResult)
    (fstoreHas : String → Bool) : RestoreP11Trace :=
  RestoreP11Trace.mk false
    (restoreP11Loop unlink fstoreHas PKCS11_MODULES).1
    (restoreP11Loop unlink fstoreHas PKCS11_MODULES).2

/- ==== end of Part 1 definitions ==== -/

example : rpmvercmp "1.0" "1.0.1" = -1 := by decide
example : rpmvercmp "1.2-1" "1.2-2" = -1 := by decide
example : rpmvercmp "1.0~rc1" "1.0" = -1 := by decide
example : rpmvercmp "2.0" "1.9.9" = 1 := by decide
example : rpmvercmp "" "." = 0 := by decide
example : rpmvercmp "" "~1" = 1 := by decide
example : rpmvercmp "" "a" = -1 := by decide
example : rpmvercmp "1.0" "1_0" = 0 := by decide
example : rpmvercmp "4.9.10-1.fc35" "4.9.10-1.fc35" = 0 := by decide
example : rpmvercmp "1.05" "1.5" = 0 := by decide
example : rpmvercmp "1.0a" "1.0.1" = -1 := by decide

/- ===================================================================
   Lemmas: the version comparison is a strict total order.
   ================================================================ -/

theorem charCmp_self (c : Char) : charCmp c c = Ordering.eq := by
  simp [charCmp, Nat.compare_eq_eq]

theorem charCmp_eq_iff {c d : Char} : charCmp c d = Ordering.eq ↔ c = d := by
  constructor
  · intro h
    have hn : c.toNat = d.toNat := Nat.compare_eq_eq.mp h
    have h1 : Char.ofNat c.toNat = Char.ofNat d.toNat := congrArg Char.ofNat hn
    rwa [Char.ofNat_toNat, Char.ofNat_toNat] at h1
  · intro h
    subst h
    exact charCmp_self c

theorem charCmp_swap (c d : Char) : charCmp c d = (charCmp d c).swap := by
  simp [charCmp, Nat.compare_swap]

theorem charCmp_lt_trans {a b c : Char} (h1 : charCmp a b = Ordering.lt)
    (h2 : charCmp b c = Ordering.lt) : charCmp a c = Ordering.lt := by
  simp only [charCmp, Nat.compare_eq_lt] at h1 h2 ⊢
  exact Nat.lt_trans h1 h2

theorem charsCmp_self (l : List Char) : charsCmp l l = Ordering.eq := by
  induction l with
  | nil => rfl
  | cons c cs ih => simp [charsCmp, charCmp_self, ih]

theorem charsCmp_eq_iff {s t : List Char} : charsCmp s t = Ordering.eq ↔ s = t := by
  induction s generalizing t with
  | nil =>
    cases t with
    | nil => simp [charsCmp]
    | cons d ds => simp [charsCmp]
  | cons c cs ih =>
    cases t with
    | nil => simp [charsCmp]
    | cons d ds =>
      rcases h : charCmp c d with _ | _ | _
      · simp only [charsCmp, h]
        constructor
        · intro hh; cases hh
        · rintro ⟨rfl, rfl⟩
          rw [charCmp_self] at h; cases h
      · have hcd : c = d := charCmp_eq_iff.mp h
        subst hcd
        simp [charsCmp, h, ih]
      · simp only [charsCmp, h]
        constructor
        · intro hh; cases hh
        · rintro ⟨rfl, rfl⟩
          rw [charCmp_self] at h; cases h

theorem charsCmp_swap (s t : List Char) : charsCmp s t = (charsCmp t s).swap := by
  induction s generalizing t with
  | nil => cases t <;> rfl
  | cons c cs ih =>
    cases t with
    | nil => rfl
    | cons d ds =>
      rcases h : charCmp d c with _ | _ | _
      · have hc : charCmp c d = Ordering.gt := by rw [charCmp_swap c d, h]; rfl
        simp [charsCmp, hc, h, Ordering.swap]
      · have hdc : d = c := charCmp_eq_iff.mp h
        subst hdc
        simp [charsCmp, charCmp_self, ih]
      · have hc : charCmp c d = Ordering.lt := by rw [charCmp_swap c d, h]; rfl
        simp [charsCmp, hc, h, Ordering.swap]

theorem charsCmp_lt_trans {a b c : List Char} (h1 : charsCmp a b = Ordering.lt)
    (h2 : charsCmp b c = Ordering.lt) : charsCmp a c = Ordering.lt := by
  induction a generalizing b c with
  | nil =>
    cases b with
    | nil => cases h1
    | cons b1 bs =>
      cases c with
      | nil => cases h2
      | cons c1 cs => rfl
  | cons a1 as ih =>
    cases b with
    | nil => cases h1
    | cons b1 bs =>
      cases c with
      | nil => cases h2
      | cons c1 cs =>
        rcases hab : charCmp a1 b1 with _ | _ | _ <;>
          rcases hbc : charCmp b1 c1 with _ | _ | _ <;>
            simp only [charsCmp, hab, hbc] at h1 h2 ⊢
        · rw [charCmp_lt_trans hab hbc]
        · have : b1 = c1 := charCmp_eq_iff.mp hbc
          subst this
          rw [hab]
        · cases h2
        · have : a1 = b1 := charCmp_eq_iff.mp hab
          subst this
          rw [hbc]
        · have hb : a1 = b1 := charCmp_eq_iff.mp hab
          have hc : b1 = c1 := charCmp_eq_iff.mp hbc
          subst hb; subst hc
          rw [charCmp_self]
          exact ih h1 h2
        · cases h2
        · cases h1
        · cases h1
        · cases h1

theorem vtokCmp_self (t : VTok) : vtokCmp t t = Ordering.eq := by
  cases t with
  | tilde => rfl
  | alpha s => simp [vtokCmp, charsCmp_self]
  | num n => simp [vtokCmp, Nat.compare_eq_eq]

theorem vtokCmp_eq_iff {a b : VTok} : vtokCmp a b = Ordering.eq ↔ a = b := by
  cases a <;> cases b <;>
    simp [vtokCmp, charsCmp_eq_iff, Nat.compare_eq_eq]

theorem vtokCmp_swap (a b : VTok) : vtokCmp a b = (vtokCmp b a).swap := by
  cases a <;> cases b <;>
    first
    | rfl
    | exact charsCmp_swap _ _
    | exact (Nat.compare_swap _ _).symm

theorem vtokCmp_lt_trans {a b c : VTok} (h1 : vtokCmp a b = Ordering.lt)
    (h2 : vtokCmp b c = Ordering.lt) : vtokCmp a c = Ordering.lt := by
  cases a <;> cases b <;> cases c <;>
    simp only [vtokCmp] at h1 h2 ⊢ <;>
    first
    | rfl
    | exact h1
    | exact h2
    | exact Ordering.noConfusion h1
    | exact Ordering.noConfusion h2
    | exact charsCmp_lt_trans h1 h2
    | exact Nat.compare_eq_lt.mpr (Nat.lt_trans (Nat.compare_eq_lt.mp h1) (Nat.compare_eq_lt.mp h2))

theorem toksCmp_self (l : List VTok) : toksCmp l l = Ordering.eq := by
  induction l with
  | nil => rfl
  | cons t ts ih => simp [toksCmp, vtokCmp_self, ih]

theorem toksCmp_eq_iff {s t : List VTok} : toksCmp s t = Ordering.eq ↔ s = t := by
  induction s generalizing t with
  | nil =>
    cases t with
    | nil => simp [toksCmp]
    | cons b bs => cases b <;> simp [toksCmp]
  | cons a as ih =>
    cases t with
    | nil => cases a <;> simp [toksCmp]
    | cons b bs =>
      rcases h : vtokCmp a b with _ | _ | _
      · simp only [toksCmp, h]
        constructor
        · intro hh; cases hh
        · rintro ⟨rfl, rfl⟩
          rw [vtokCmp_self] at h; cases h
      · have hab : a = b := vtokCmp_eq_iff.mp h
        subst hab
        simp [toksCmp, h, ih]
      · simp only [toksCmp, h]
        constructor
        · intro hh; cases hh
        · rintro ⟨rfl, rfl⟩
          rw [vtokCmp_self] at h; cases h

theorem toksCmp_swap (s t : List VTok) : toksCmp s t = (toksCmp t s).swap := by
  induction s generalizing t with
  | nil =>
    cases t with
    | nil => rfl
    | cons b bs => cases b <;> rfl
  | cons a as ih =>
    cases t with
    | nil => cases a <;> rfl
    | cons b bs =>
      rcases h : vtokCmp b a with _ | _ | _
      · have hab : vtokCmp a b = Ordering.gt := by rw [vtokCmp_swap a b, h]; rfl
        simp [toksCmp, hab, h, Ordering.swap]
      · have hba : b = a := vtokCmp_eq_iff.mp h
        subst hba
        simp [toksCmp, vtokCmp_self, ih]
      · have hab : vtokCmp a b = Ordering.lt := by rw [vtokCmp_swap a b, h]; rfl
        simp [toksCmp, hab, h, Ordering.swap]

theorem toksCmp_lt_trans {a b c : List VTok} (h1 : toksCmp a b = Ordering.lt)
    (h2 : toksCmp b c = Ordering.lt) : toksCmp a c = Ordering.lt := by
  induction a generalizing b c with
  | nil =>
    cases b with
    | nil => cases h1
    | cons b1 bs =>
      cases c with
      | nil =>
        cases b1 with
        | tilde => simp only [toksCmp] at h1; exact Ordering.noConfusion h1
        | alpha s => simp only [toksCmp] at h2; exact Ordering.noConfusion h2
        | num n => simp only [toksCmp] at h2; exact Ordering.noConfusion h2
      | cons c1 cs =>
        cases b1 with
        | tilde => simp only [toksCmp] at h1; exact Ordering.noConfusion h1
        | alpha s =>
          cases c1 with
          | tilde =>
            simp only [toksCmp, vtokCmp] at h2
            exact Ordering.noConfusion h2
          | alpha t => rfl
          | num n => rfl
        | num n =>
          cases c1 with
          | tilde =>
            simp only [toksCmp, vtokCmp] at h2
            exact Ordering.noConfusion h2
          | alpha t => rfl
          | num m => rfl
  | cons a1 as ih =>
    cases b with
    | nil =>
      cases a1 with
      | tilde =>
        cases c with
        | nil => cases h2
        | cons c1 cs =>
          cases c1 with
          | tilde => simp only [toksCmp] at h2; exact Ordering.noConfusion h2
          | alpha t => rfl
          | num m => rfl
      | alpha s => simp only [toksCmp] at h1; exact Ordering.noConfusion h1
      | num n => simp only [toksCmp] at h1; exact Ordering.noConfusion h1
    | cons b1 bs =>
      cases c with
      | nil =>
        cases b1 with
        | tilde =>
          cases a1 with
          | tilde =>
            simp only [toksCmp, vtokCmp] at h1
            exact rfl
          | alpha s =>
            simp only [toksCmp, vtokCmp] at h1
            exact Ordering.noConfusion h1
          | num n =>
            simp only [toksCmp, vtokCmp] at h1
            exact Ordering.noConfusion h1
        | alpha s => simp only [toksCmp] at h2; exact Ordering.noConfusion h2
        | num n => simp only [toksCmp] at h2; exact Ordering.noConfusion h2
      | cons c1 cs =>
        rcases hab : vtokCmp a1 b1 with _ | _ | _ <;>
          rcases hbc : vtokCmp b1 c1 with _ | _ | _
        · have hac := vtokCmp_lt_trans hab hbc
          simp [toksCmp, hac]
        · have hbc' := vtokCmp_eq_iff.mp hbc
          subst hbc'
          simp [toksCmp, hab]
        · simp only [toksCmp, hbc] at h2
          exact Ordering.noConfusion h2
        · have hab' := vtokCmp_eq_iff.mp hab
          subst hab'
          simp [toksCmp, hbc]
        · have hab' := vtokCmp_eq_iff.mp hab
          subst hab'
          have hbc' := vtokCmp_eq_iff.mp hbc
          subst hbc'
          simp only [toksCmp, vtokCmp_self] at h1 h2 ⊢
          exact ih h1 h2
        · simp only [toksCmp, hbc] at h2
          exact Ordering.noConfusion h2
        · simp only [toksCmp, hab] at h1
          exact Ordering.noConfusion h1
        · simp only [toksCmp, hab] at h1
          exact Ordering.noConfusion h1
        · simp only [toksCmp, hab] at h1
          exact Ordering.noConfusion h1

theorem ordToInt_swap (o : Ordering) : ordToInt o.swap = - ordToInt o := by
  cases o <;> rfl

theorem ordToInt_neg_iff (o : Ordering) : ordToInt o < 0 ↔ o = Ordering.lt := by
  cases o <;> simp [ordToInt]

theorem ordToInt_zero_iff (o : Ordering) : ordToInt o = 0 ↔ o = Ordering.eq := by
  cases o <;> simp [ordToInt]

theorem rpmvercmp_toks (a b : String) :
    rpmvercmp a b = ordToInt (toksCmp (tokenize a.data) (tokenize b.data)) := rfl

/- ===================================================================
   Claim theorems (version comparison).
   ================================================================ -/

/-- C1: Version comparison via `IPAVersion` (as returned by
`parse_ipa_version`) is a strict total order consistent with equality and
stable: for all version strings `a`, `b`, `c` the comparison is reflexive
(`compare(a,a)` is EQUAL), antisymmetric (`compare(a,b) = -compare(b,a)`),
transitive (both for the strict order and for equality), and comparing the
same two strings twice always yields the same result. -/
theorem ipa_version_cmp_strict_total_order :
    (∀ a : String, IPAVersion.vcmp (parse_ipa_version a) (parse_ipa_version a) = 0) ∧
    (∀ a b : String, IPAVersion.vcmp (parse_ipa_version a) (parse_ipa_version b) =
      - IPAVersion.vcmp (parse_ipa_version b) (parse_ipa_version a)) ∧
    (∀ a b c : String,
      IPAVersion.vcmp (parse_ipa_version a) (parse_ipa_version b) < 0 →
      IPAVersion.vcmp (parse_ipa_version b) (parse_ipa_version c) < 0 →
      IPAVersion.vcmp (parse_ipa_version a) (parse_ipa_version c) < 0) ∧
    (∀ a b c : String,
      IPAVersion.vcmp (parse_ipa_version a) (parse_ipa_version b) = 0 →
      IPAVersion.vcmp (parse_ipa_version b) (parse_ipa_version c) = 0 →
      IPAVersion.vcmp (parse_ipa_version a) (parse_ipa_version c) = 0) ∧
    (∀ a b a' b' : String, a = a' → b = b' →
      IPAVersion.vcmp (parse_ipa_version a) (parse_ipa_version b) =
      IPAVersion.vcmp (parse_ipa_version a') (parse_ipa_version b')) := by
  refine ⟨?_, ?_, ?_, ?_, ?_⟩
  · intro a
    show rpmvercmp a a = 0
    rw [rpmvercmp_toks, toksCmp_self]
    rfl
  · intro a b
    show rpmvercmp a b = - rpmvercmp b a
    rw [rpmvercmp_toks, rpmvercmp_toks, toksCmp_swap, ordToInt_swap]
  · intro a b c h1 h2
    have h1' : rpmvercmp a b < 0 := h1
    have h2' : rpmvercmp b c < 0 := h2
    show rpmvercmp a c < 0
    rw [rpmvercmp_toks] at h1' h2' ⊢
    rw [ordToInt_neg_iff] at h1' h2' ⊢
    exact toksCmp_lt_trans h1' h2'
  · intro a b c h1 h2
    have h1' : rpmvercmp a b = 0 := h1
    have h2' : rpmvercmp b c = 0 := h2
    show rpmvercmp a c = 0
    rw [rpmvercmp_toks] at h1' h2' ⊢
    rw [ordToInt_zero_iff] at h1' h2' ⊢
    rw [toksCmp_eq_iff] at h1' h2' ⊢
    rw [h1', h2']
  · intro a b a' b' ha hb
    subst ha
    subst hb
    rfl

/-- Witness for C1 at concrete inputs: transitivity of the strict order at
("1.0", "1.2", "2.0~rc1") and of equality at ("1.05", "1.5", "01.5"). -/
theorem ipa_version_cmp_strict_total_order_witness :
    IPAVersion.vcmp (parse_ipa_version "1.0") (parse_ipa_version "2.0~rc1") < 0 ∧
    IPAVersion.vcmp (parse_ipa_version "1.05") (parse_ipa_version "01.5") = 0 := by
  constructor
  · exact ipa_version_cmp_strict_total_order.2.2.1 "1.0" "1.2" "2.0~rc1"
      (by decide) (by decide)
  · exact ipa_version_cmp_strict_total_order.2.2.2.1 "1.05" "1.5" "01.5"
      (by decide) (by decide)

/-- C2: the concrete comparisons listed in the spec:
`compare("1.0","1.0.1")` is LESS, `compare("1.2-1","1.2-2")` is LESS,
`compare("1.0~rc1","1.0")` is LESS, `compare("2.0","1.9.9")` is GREATER. -/
theorem rpmvercmp_spec_examples :
    rpmvercmp "1.0" "1.0.1" < 0 ∧
    rpmvercmp "1.2-1" "1.2-2" < 0 ∧
    rpmvercmp "1.0~rc1" "1.0" < 0 ∧
    0 < rpmvercmp "2.0" "1.9.9" := by decide

/-- C8 counterexample: the empty string does not compare less than every
non-empty string: it compares EQUAL to the separator-only string "." and
GREATER than the tilde-led string "~1". -/
theorem rpmvercmp_empty_string_counterexample :
    rpmvercmp "" "." = 0 ∧ rpmvercmp "" "~1" = 1 := by decide

/-- C8 (amended): strings that differ only in separator characters split
into the same segments and compare as equal; the empty string compares
equal to a separator-only string, greater than a string whose first
segment is a tilde, and less than any string whose first segment is
alphanumeric. -/
theorem rpmvercmp_empty_and_separator_semantics :
    (∀ s : String, tokenize s.data = [] → rpmvercmp "" s = 0) ∧
    (∀ s : String, ∀ ts : List VTok,
      tokenize s.data = VTok.tilde :: ts → rpmvercmp "" s = 1) ∧
    (∀ s : String, ∀ t : VTok, ∀ ts : List VTok,
      tokenize s.data = t :: ts → t ≠ VTok.tilde → rpmvercmp "" s = -1) ∧
    (∀ a b : String, tokenize a.data = tokenize b.data → rpmvercmp a b = 0) := by
  refine ⟨?_, ?_, ?_, ?_⟩
  · intro s h
    rw [rpmvercmp_toks, show tokenize "".data = [] from rfl, h]
    rfl
  · intro s ts h
    rw [rpmvercmp_toks, show tokenize "".data = [] from rfl, h]
    rfl
  · intro s t ts h ht
    rw [rpmvercmp_toks, show tokenize "".data = [] from rfl, h]
    cases t with
    | tilde => exact absurd rfl ht
    | alpha a => rfl
    | num n => rfl
  · intro a b h
    rw [rpmvercmp_toks, h, toksCmp_self]
    rfl

/-- Witness for C8 (amended) at concrete inputs: "" vs the separator-only
"._", "" vs the tilde-led "~2", "" vs the alphanumeric "7a", and the
separator-swapped pair "1.0" vs "1_0". -/
theorem rpmvercmp_empty_and_separator_semantics_witness :
    rpmvercmp "" "._" = 0 ∧ rpmvercmp "" "~2" = 1 ∧ rpmvercmp "" "7a" = -1 ∧
    rpmvercmp "1.0" "1_0" = 0 := by
  refine ⟨?_, ?_, ?_, ?_⟩
  · exact rpmvercmp_empty_and_separator_semantics.1 "._" (by decide)
  · exact rpmvercmp_empty_and_separator_semantics.2.1 "~2" [VTok.num 2] (by decide)
  · exact rpmvercmp_empty_and_separator_semantics.2.2.1 "7a" (VTok.num 7)
      [VTok.alpha ['a']] (by decide) (by decide)
  · exact rpmvercmp_empty_and_separator_semantics.2.2.2 "1.0" "1_0" (by decide)

/- ===================================================================
   Claim theorems (DNS resolver).
   ================================================================ -/

/-- C3 counterexample: on the fallback path the first line of the static
resolver file is the auto-generated comment, not `search example.com`;
the claimed first line is actually the second. -/
theorem resolv_conf_first_line_counterexample :
    (fileLines (resolvConfContent ["10.0.0.1", "10.0.0.2"] ["example.com"])).head? ≠
      some "search example.com" ∧
    (fileLines (resolvConfContent ["10.0.0.1", "10.0.0.2"] ["example.com"])).head? =
      some "# auto-generated by IPA installer" ∧
    (configure_dns_resolver (PyListArg.ofList ["10.0.0.1", "10.0.0.2"])
        (PyListArg.ofList ["example.com"]) false false false false).effects =
      [DnsEffect.baseConfigure,
       DnsEffect.writeFile RESOLV_CONF
         (resolvConfContent ["10.0.0.1", "10.0.0.2"] ["example.com"])] := by
  decide

/-- C3 (amended): with NetworkManager and systemd-resolved both disabled,
calling `configure_dns_resolver` with nameservers ["10.0.0.1","10.0.0.2"]
and search domains ["example.com"] writes exactly one file, the static
resolver file, whose first line is the comment
`# auto-generated by IPA installer`, whose second line is
`search example.com`, followed by exactly two `nameserver` lines, one per
address, in input order. -/
theorem resolv_conf_static_layout :
    (configure_dns_resolver (PyListArg.ofList ["10.0.0.1", "10.0.0.2"])
        (PyListArg.ofList ["example.com"]) false false false false) =
      DnsResult.mk
        [DnsEffect.baseConfigure,
         DnsEffect.writeFile RESOLV_CONF
           (resolvConfContent ["10.0.0.1", "10.0.0.2"] ["example.com"])] false ∧
    fileLines (resolvConfContent ["10.0.0.1", "10.0.0.2"] ["example.com"]) =
      ["# auto-generated by IPA installer", "search example.com",
       "nameserver 10.0.0.1", "nameserver 10.0.0.2"] := by
  decide

/-- C10: `configure_dns_resolver` requires non-empty list arguments: when
either `nameservers` or `searchdomains` is an empty list or not a list,
it raises `AssertionError` before performing any effect (no file is read
or written and no collaborator is invoked). -/
theorem configure_dns_resolver_assert_guard
    (nameservers searchdomains : PyListArg) (r1 nm fp fh : Bool)
    (h : nameservers.assertOk = false ∨ searchdomains.assertOk = false) :
    configure_dns_resolver nameservers searchdomains r1 nm fp fh =
      DnsResult.mk [] true := by
  rcases nameservers with xs | t
  · cases xs with
    | nil => rfl
    | cons x xt =>
      rcases searchdomains with ys | u
      · cases ys with
        | nil => rfl
        | cons y yt =>
          exfalso
          rcases h with h | h <;> simp [PyListArg.assertOk] at h
      · rfl
  · rfl

/-- Witness for C10: a non-list nameserver argument and an empty search
domain list both raise without performing any effect. -/
theorem configure_dns_resolver_assert_guard_witness :
    configure_dns_resolver (PyListArg.notList true)
      (PyListArg.ofList ["example.com"]) false false false false =
      DnsResult.mk [] true ∧
    configure_dns_resolver (PyListArg.ofList ["10.0.0.1"])
      (PyListArg.ofList []) true true true true = DnsResult.mk [] true := by
  constructor
  · exact configure_dns_resolver_assert_guard _ _ _ _ _ _ (Or.inl rfl)
  · exact configure_dns_resolver_assert_guard _ _ _ _ _ _ (Or.inr rfl)

/- ===================================================================
   Lemmas and claim theorems (SELinux booleans).
   ================================================================ -/

theorem seFinish_outcome_ne (env : SeLinuxEnv)
    (r : List (String × String) × List (String × String) × List (String × String)) :
    (seFinish env r).outcome ≠ SeOutcome.ret false := by
  unfold seFinish
  split
  · intro h
    simp at h
  · intro h
    simp at h

theorem seLoop_eq (env : SeLinuxEnv) (hb : Bool)
    (required : List (String × Option String)) :
    seLoop env hb required =
      (required.filterMap (needsChange env),
       required.filterMap (queryFailed env),
       required.filterMap (backupEntry env hb)) := by
  induction required with
  | nil => rfl
  | cons p rest ih =>
    obtain ⟨setting, stOpt⟩ := p
    cases stOpt with
    | none =>
      simp [seLoop, needsChange, queryFailed, backupEntry, ih]
    | some state =>
      cases hg : env.getsebool setting with
      | none =>
        simp [seLoop, hg, needsChange, queryFailed, backupEntry, ih]
      | some originalState =>
        simp only [seLoop, hg, ih]
        by_cases hns : (originalState != state) = true <;>
          by_cases hhb : hb = true <;>
            simp [needsChange, queryFailed, backupEntry, hg, hns, hhb]

/-- C4: in one `set_selinux_booleans` batch where exactly one setting's
`getsebool` query fails and every other query succeeds (SELinux enabled,
the `setsebool -P` run succeeding), the other settings whose target
differs from their current state are still applied in a single
`setsebool -P` invocation, and the one aggregate error raised after the
batch names exactly the failed setting with its intended value. -/
theorem set_selinux_booleans_partial_failure
    (env : SeLinuxEnv) (required : List (String × Option String))
    (hasBackup : Bool) (s0 v0 : String)
    (hen : env.enabled = true) (hok : env.setseboolOk = true)
    (hfail : required.filterMap (queryFailed env) = [(s0, v0)]) :
    (set_selinux_booleans env required hasBackup).outcome =
      SeOutcome.raised
        (SetseboolError.mk [(s0, v0)]
          (joinSep " " (getSetseboolArgs [(s0, v0)]))) ∧
    (set_selinux_booleans env required hasBackup).setseboolRuns =
      (if (required.filterMap (needsChange env)).isEmpty then []
       else [getSetseboolArgs (required.filterMap (needsChange env))]) := by
  simp only [set_selinux_booleans, hen]
  rw [seLoop_eq]
  have hfv : seFailedVars env (required.filterMap (needsChange env))
      (required.filterMap (queryFailed env)) = [(s0, v0)] := by
    unfold seFailedVars
    rw [hfail, hok]
    by_cases hu : (required.filterMap (needsChange env)).isEmpty = true <;>
      simp [hu]
  simp only [seFinish, hfv, seRuns]
  constructor
  · simp
  · simp

/-- Witness for C4: three settings targeted "on"; the query for "b2"
fails, "b1" and "b3" are both currently "off" and get applied in one
`setsebool -P` run; the aggregate error names only "b2". -/
theorem set_selinux_booleans_partial_failure_witness :
    (set_selinux_booleans seEnvW seReqW false).outcome =
      SeOutcome.raised
        (SetseboolError.mk [("b2", "on")]
          (joinSep " " (getSetseboolArgs [("b2", "on")]))) ∧
    (set_selinux_booleans seEnvW seReqW false).setseboolRuns =
      [getSetseboolArgs [("b1", "on"), ("b3", "on")]] := by
  have h := set_selinux_booleans_partial_failure seEnvW seReqW false "b2" "on"
    rfl rfl (by decide)
  refine ⟨h.1, ?_⟩
  rw [h.2]
  decide

/-- C5 counterexample: with SELinux enabled and the single required
setting already at its target value, no boolean is changed (no
`setsebool` run happens at all), yet the function still returns True,
contradicting "returns True exactly when at least one boolean's value
was actually changed". -/
theorem set_selinux_booleans_true_without_change :
    set_selinux_booleans seEnvNoChange
        [("httpd_can_network_connect", some "on")] false =
      SeTrace.mk [] [] (SeOutcome.ret true) := by
  decide

/-- C5 (amended): the returned boolean reports applicability, not change:
the call returns False exactly when SELinux is not enabled (and then it
does nothing at all); when SELinux is enabled, every non-raising call
returns True, even when no boolean's value was changed. -/
theorem set_selinux_booleans_return_value
    (env : SeLinuxEnv) (required : List (String × Option String))
    (hb : Bool) :
    ((set_selinux_booleans env required hb).outcome = SeOutcome.ret false ↔
       env.enabled = false) ∧
    (env.enabled = false →
       set_selinux_booleans env required hb =
         SeTrace.mk [] [] (SeOutcome.ret false)) := by
  constructor
  · cases he : env.enabled
    · simp [set_selinux_booleans, he]
    · simp only [set_selinux_booleans, he]
      constructor
      · intro h
        exact absurd h (seFinish_outcome_ne env _)
      · intro h
        cases h
  · intro h
    simp [set_selinux_booleans, h]

/-- Witness for C5 (amended): with SELinux disabled the call is a no-op
returning False. -/
theorem set_selinux_booleans_return_value_witness :
    set_selinux_booleans (SeLinuxEnv.mk false (fun _ => none) true) [] false =
      SeTrace.mk [] [] (SeOutcome.ret false) :=
  (set_selinux_booleans_return_value
    (SeLinuxEnv.mk false (fun _ => none) true) [] false).2 rfl

/- ===================================================================
   Lemmas and claim theorem (p11-kit trust store writer).
   ================================================================ -/

theorem ekuKeys_nil : ekuKeys [] = [] := rfl

theorem ekuKeys_cert_cons (c : CaCert) (ts : List P11Stanza) :
    ekuKeys (p11CertStanza c :: ts) = ekuKeys ts := rfl

theorem ekuKeys_ekuExt_cons (l p v : String) (ts : List P11Stanza) :
    ekuKeys (P11Stanza.ekuExt l p v :: ts) = p :: ekuKeys ts := rfl

theorem mem_ekuKeys_p11kitObjects (k : String) :
    ∀ (cs : List CaCert) (seen : List String),
      k ∈ ekuKeys (p11kitObjects cs seen) ↔
        ((∃ c ∈ cs, urlquote c.pkinfo = k ∧ c.eku ≠ none) ∧ k ∉ seen) := by
  intro cs
  induction cs with
  | nil =>
    intro seen
    simp [p11kitObjects, ekuKeys_nil]
  | cons c rest ih =>
    intro seen
    cases he : c.eku with
    | none =>
      simp only [p11kitObjects, he, ekuKeys_cert_cons]
      rw [ih seen]
      constructor
      · rintro ⟨⟨c', hc', hk, hek⟩, hns⟩
        exact ⟨⟨c', List.mem_cons_of_mem _ hc', hk, hek⟩, hns⟩
      · rintro ⟨⟨c', hc', hk, hek⟩, hns⟩
        rcases List.mem_cons.mp hc' with rfl | hc2
        · exact absurd he hek
        · exact ⟨⟨c', hc2, hk, hek⟩, hns⟩
    | some ek =>
      by_cases hq : urlquote c.pkinfo ∈ seen
      · simp only [p11kitObjects, he]
        rw [if_pos hq, ekuKeys_cert_cons, ih seen]
        constructor
        · rintro ⟨⟨c', hc', hk, hek⟩, hns⟩
          exact ⟨⟨c', List.mem_cons_of_mem _ hc', hk, hek⟩, hns⟩
        · rintro ⟨⟨c', hc', hk, hek⟩, hns⟩
          rcases List.mem_cons.mp hc' with rfl | hc2
          · exact absurd (hk ▸ hq) hns
          · exact ⟨⟨c', hc2, hk, hek⟩, hns⟩
      · simp only [p11kitObjects, he]
        rw [if_neg hq, ekuKeys_cert_cons, ekuKeys_ekuExt_cons, List.mem_cons,
          ih (urlquote c.pkinfo :: seen)]
        constructor
        · rintro (rfl | ⟨⟨c', hc', hk, hek⟩, hns⟩)
          · exact ⟨⟨c, List.mem_cons_self _ _, rfl, by simp [he]⟩, hq⟩
          · have hns' : k ∉ seen := fun hmem => hns (List.mem_cons_of_mem _ hmem)
            exact ⟨⟨c', List.mem_cons_of_mem _ hc', hk, hek⟩, hns'⟩
        · rintro ⟨⟨c', hc', hk, hek⟩, hns⟩
          rcases List.mem_cons.mp hc' with rfl | hc2
          · exact Or.inl hk.symm
          · by_cases hkq : k = urlquote c.pkinfo
            · exact Or.inl hkq
            · refine Or.inr ⟨⟨c', hc2, hk, hek⟩, ?_⟩
              intro hmem
              rcases List.mem_cons.mp hmem with h | h
              · exact hkq h
              · exact hns h

theorem nodup_ekuKeys_p11kitObjects :
    ∀ (cs : List CaCert) (seen : List String),
      (ekuKeys (p11kitObjects cs seen)).Nodup := by
  intro cs
  induction cs with
  | nil =>
    intro seen
    simp [p11kitObjects, ekuKeys_nil]
  | cons c rest ih =>
    intro seen
    cases he : c.eku with
    | none =>
      simp only [p11kitObjects, he, ekuKeys_cert_cons]
      exact ih seen
    | some ek =>
      by_cases hq : urlquote c.pkinfo ∈ seen
      · simp only [p11kitObjects, he]
        rw [if_pos hq, ekuKeys_cert_cons]
        exact ih seen
      · simp only [p11kitObjects, he]
        rw [if_neg hq, ekuKeys_cert_cons, ekuKeys_ekuExt_cons]
        refine List.nodup_cons.mpr ⟨?_, ih _⟩
        intro hmem
        have h := (mem_ekuKeys_p11kitObjects _ rest _).mp hmem
        exact h.2 (List.mem_cons_self _ _)

/-- C6: for every input certificate list, `write_p11kit_certs` emits at
most one extended-key-usage stanza per distinct (escaped) public-key
info, even when several input certificates share that key, and such a
stanza appears exactly for the keys of certificates that carry an
extended-key-usage extension. -/
theorem write_p11kit_certs_eku_dedup (certs : List CaCert) :
    (ekuKeys (write_p11kit_certs certs)).Nodup ∧
    (∀ k : String, k ∈ ekuKeys (write_p11kit_certs certs) ↔
      ∃ c ∈ certs, urlquote c.pkinfo = k ∧ c.eku ≠ none) := by
  constructor
  · exact nodup_ekuKeys_p11kitObjects certs []
  · intro k
    rw [write_p11kit_certs, mem_ekuKeys_p11kitObjects]
    simp

/- ===================================================================
   Claim theorems (PKCS#11 modules, restore/removal error paths).
   ================================================================ -/

/-- C7: `configure_pkcs11_modules` backs up a pre-existing module file
exactly once: a run backs it up exactly when it exists, does not contain
the IPA marker, and is not yet in the backup store; in particular the
backup is skipped when the store already has the file or when the
content contains "IPA"; a run performs at most one backup, writes a file
containing the IPA marker, and therefore a second run on the resulting
state never backs the file up. -/
theorem configure_pkcs11_modules_backup_once (fs : P11Fs) :
    (configure_pkcs11_modules fs).backups = expectedP11Backups fs ∧
    (fs.fstoreHas (moduleFilename "softhsm2") = true →
      (configure_pkcs11_modules fs).backups = []) ∧
    (∀ content : String,
      fs.files (moduleFilename "softhsm2") = some content →
      containsIPA content = true →
      (configure_pkcs11_modules fs).backups = []) ∧
    containsIPA (moduleContent LIBSOFTHSM2_SO ["p11-kit-proxy"]) = true ∧
    (configure_pkcs11_modules fs).fs.files (moduleFilename "softhsm2") =
      some (moduleContent LIBSOFTHSM2_SO ["p11-kit-proxy"]) ∧
    (configure_pkcs11_modules (configure_pkcs11_modules fs).fs).backups = [] ∧
    (configure_pkcs11_modules fs).backups.length ≤ 1 := by
  have hgen : containsIPA (moduleContent LIBSOFTHSM2_SO ["p11-kit-proxy"]) = true := by
    decide
  have hchar : ∀ fs' : P11Fs,
      (configure_pkcs11_modules fs').backups = expectedP11Backups fs' := by
    intro fs'
    simp [configure_pkcs11_modules, configureP11, PKCS11_MODULES,
      expectedP11Backups]
  have hfile : ∀ fs' : P11Fs,
      (configure_pkcs11_modules fs').fs.files (moduleFilename "softhsm2") =
        some (moduleContent LIBSOFTHSM2_SO ["p11-kit-proxy"]) := by
    intro fs'
    simp [configure_pkcs11_modules, configureP11, PKCS11_MODULES, p11StepFs]
  refine ⟨hchar fs, ?_, ?_, hgen, hfile fs, ?_, ?_⟩
  · intro hstore
    rw [hchar fs]
    unfold expectedP11Backups p11DoBackup
    cases hf : fs.files (moduleFilename "softhsm2") <;> simp [hf, hstore]
  · intro content hf hipa
    rw [hchar fs]
    unfold expectedP11Backups p11DoBackup
    simp [hf, hipa]
  · rw [hchar]
    unfold expectedP11Backups p11DoBackup
    simp [hfile fs, hgen]
  · rw [hchar fs]
    unfold expectedP11Backups
    split <;> simp

/-- Witness for C7: a pre-existing file containing the IPA marker, and a
file already present in the backup store, are both left unbacked-up. -/
theorem configure_pkcs11_modules_backup_once_witness :
    (configure_pkcs11_modules
      (P11Fs.mk (fun _ => some "# managed by IPA tooling")
        (fun _ => false))).backups = [] ∧
    (configure_pkcs11_modules
      (P11Fs.mk (fun _ => some "legacy") (fun _ => true))).backups = [] := by
  constructor
  · exact (configure_pkcs11_modules_backup_once
      (P11Fs.mk (fun _ => some "# managed by IPA tooling") (fun _ => false))).2.2.1
      "# managed by IPA tooling" rfl (by decide)
  · exact (configure_pkcs11_modules_backup_once
      (P11Fs.mk (fun _ => some "legacy") (fun _ => true))).2.1 rfl

/-- C9 counterexample: a non-ENOENT OSError (EACCES, errno 13) raised
while deleting the target file is swallowed on both paths, so it is not
propagated to the caller as claimed. -/
theorem unlink_error_swallowed_counterexample :
    (remove_httpd_service_ipa_conf (UnlinkResult.err 13)).raised = false ∧
    (restore_pkcs11_modules (fun _ => UnlinkResult.err 13)
      (fun _ => false)).raised = false := by
  decide

/-- C9 (amended): on the restore/removal paths every OSError from
deleting the target is caught and never propagated: ENOENT is treated as
"already absent" (debug log in `remove_httpd_service_ipa_conf`, silent
pass in `restore_pkcs11_modules`); any other OSError is merely logged as
an error (httpd path) or silently ignored (PKCS#11 path); on the httpd
path any OSError also skips the systemd daemon reload, and on the
PKCS#11 path a file is reported as removed exactly when its unlink
succeeded. -/
theorem restore_paths_swallow_os_errors :
    (∀ u : UnlinkResult, (remove_httpd_service_ipa_conf u).raised = false) ∧
    (∀ u : UnlinkResult,
      ((remove_httpd_service_ipa_conf u).reloaded = true ↔
        u = UnlinkResult.ok)) ∧
    (∀ e : Nat,
      ((remove_httpd_service_ipa_conf (UnlinkResult.err e)).log =
          RemoveLog.absentDebug ↔ e = ENOENT)) ∧
    (∀ (unlink : String → UnlinkResult) (fstoreHas : String → Bool),
      (restore_pkcs11_modules unlink fstoreHas).raised = false) ∧
    (∀ (unlink : String → UnlinkResult) (fstoreHas : String → Bool),
      (restore_pkcs11_modules unlink fstoreHas).filenames =
        (match unlink (moduleFilename "softhsm2") with
         | UnlinkResult.ok => [moduleFilename "softhsm2"]
         | UnlinkResult.err _ => [])) := by
  refine ⟨?_, ?_, ?_, ?_, ?_⟩
  · intro u
    cases u <;> rfl
  · intro u
    cases u with
    | ok => simp [remove_httpd_service_ipa_conf]
    | err e => simp [remove_httpd_service_ipa_conf]
  · intro e
    by_cases he : e = ENOENT <;> simp [remove_httpd_service_ipa_conf, he]
  · intro unlink fstoreHas
    rfl
  · intro unlink fstoreHas
    cases hu : unlink (moduleFilename "softhsm2") <;>
      simp [restore_pkcs11_modules, restoreP11Loop, PKCS11_MODULES, hu]
